import Mathlib

/-!
Verification of the `log_once` crate (src/src/lib.rs).

The crate is a family of macros (`log_once!`, `error_once!`, `warn_once!`,
`info_once!`, `debug_once!`, `trace_once!`) that forward a log event to the
`log` facade only the first time a given message is seen.  All per-level
macros delegate to `log_once!`, whose core arm is (lib.rs lines 103-112):

    (target: $target:expr, $lvl:expr, $message:expr) => ({
        let __SEEN_MESSAGES = log_once!(@CREATE STATIC);        -- per-site static
        let mut seen_messages = __SEEN_MESSAGES.lock().expect("Mutex was poisonned");
        let event = String::from(stringify!($target)) + stringify!($lvl) + $message.as_ref();
        if !seen_messages.contains(&event) {
            seen_messages.insert(event);
            log!(target: $target, $lvl, "{}", $message);
        }
    });

and the format arm (lines 113-116):

    (target: $target:expr, $lvl:expr, $format:expr, $($arg:tt)+) => ({
        let message = format!($format, $($arg)+);
        log_once!(target: $target, $lvl, message);
    });

We embed one macro invocation site as a small-step model.  The site owns a
`SiteState` (the per-site `__MessagesSet`: a poisonable mutex around a
`BTreeSet<String>`, modelled as a `Bool` poison flag plus a duplicate-free
list of strings).  One call of the core arm is the function `logOnceBare`;
it returns the updated site state, the threaded side-effect state of the
message expression (the `$message` token is an arbitrary expression, so it
is modelled as a state transformer `σ → String × σ`), a trace of observable
events, and whether the call panicked.  Key faithfulness points:

* the fingerprint (`event` below) concatenates the COMPILE-TIME token
  strings `stringify!($target)` and `stringify!($lvl)` (fixed per site,
  parameters `targetTok`/`lvlTok`) with the runtime message, while the
  forwarded record carries the RUNTIME target and level values
  (`targetVal`/`lvlVal`);
* the `MutexGuard` `seen_messages` lives to the closing brace of the
  expansion block, so the unlock event comes after the `log!` call;
* `.lock().expect(...)` panics when the mutex is poisoned;
* a panic inside `log!` (modelled by the `emitPanics` flag) unwinds through
  the live guard and poisons the mutex, after the insert has happened;
* in the core arm the `$message` expression occurs twice in the expansion
  (once in the fingerprint via `.as_ref()`, once inside `log!`), so it is
  evaluated a second time only on the emitting path.
-/

/-- Observable events of one call, in program order: mutex acquisition and
release, each evaluation of the `$message` expression (line 107 and inside
`log!` on line 110), the `format!` rendering of the format arm (line 114),
the `contains` query (line 108), the `insert` (line 109), the forwarded
emission to the facade with its runtime target, level and message
(line 110), and a panic. -/
inductive Event where
  | lock : Event
  | unlock : Event
  | evalMsg : String → Event
  | render : String → Event
  | query : String → Event
  | insert : String → Event
  | emit : String → String → String → Event
  | panic : Event
deriving DecidableEq, Repr

/-- The `__MessagesSet` owned by one invocation site: the poison flag of the
`Mutex` and the contents of the `BTreeSet<String>` (a list; elements are
only ever appended, and only when absent). -/
structure SiteState where
  poisoned : Bool
  seen : List String
deriving DecidableEq, Repr

/-- A freshly initialised `__MessagesSet` (`__MessagesSet::new()`,
lib.rs lines 69-73): unpoisoned, empty set. -/
def freshSite : SiteState := ⟨false, []⟩

/-- Result of one call at a site: the site state afterwards, the threaded
side-effect state of the argument expressions, the event trace, and whether
the call terminated by panic. -/
structure CallResult (σ : Type) where
  state : SiteState
  effSt : σ
  trace : List Event
  panicked : Bool
deriving Repr

/-- Line 107 of lib.rs: the fingerprint
`String::from(stringify!($target)) + stringify!($lvl) + $message.as_ref()` —
plain concatenation of the target tokens, level tokens and rendered
message, with no separator. -/
def event (targetTok lvlTok msg : String) : String :=
  targetTok ++ lvlTok ++ msg

/-- One call of the core arm of `log_once!` (lib.rs lines 103-112).
`targetTok`/`lvlTok` are the compile-time `stringify!` renderings (fixed at
the invocation site); `targetVal`/`lvlVal` are the runtime values handed to
`log!`; `msgExpr` is the `$message` expression as a state transformer;
`emitPanics` models the downstream facade panicking inside `log!`. -/
def logOnceBare {σ : Type} (targetTok lvlTok targetVal lvlVal : String)
    (msgExpr : σ → String × σ) (emitPanics : Bool) (st : σ) (s : SiteState) :
    CallResult σ :=
  if s.poisoned then
    -- line 106: `.lock().expect("Mutex was poisonned")` panics
    ⟨s, st, [Event.panic], true⟩
  else
    -- line 107: first evaluation of `$message`, fingerprint construction
    let r1 := msgExpr st
    let fp := event targetTok lvlTok r1.1
    if s.seen.contains fp then
      -- line 108 false branch: nothing, guard dropped at the closing brace
      ⟨s, r1.2, [Event.lock, Event.evalMsg r1.1, Event.query fp, Event.unlock],
       false⟩
    else
      -- line 109 insert, then line 110 `log!` re-evaluates `$message`
      let r2 := msgExpr r1.2
      if emitPanics then
        -- the panic unwinds through the live `MutexGuard`: mutex poisoned,
        -- the insert already committed
        ⟨⟨true, s.seen ++ [fp]⟩, r2.2,
         [Event.lock, Event.evalMsg r1.1, Event.query fp, Event.insert fp,
          Event.evalMsg r2.1, Event.emit targetVal lvlVal r2.1, Event.panic],
         true⟩
      else
        ⟨⟨false, s.seen ++ [fp]⟩, r2.2,
         [Event.lock, Event.evalMsg r1.1, Event.query fp, Event.insert fp,
          Event.evalMsg r2.1, Event.emit targetVal lvlVal r2.1, Event.unlock],
         false⟩

/-- One call of the format arm of `log_once!` (lib.rs lines 113-116):
`let message = format!($format, $($arg)+);` runs first — `render` models
`format!` with the side effects of its interpolation arguments — and the
core arm is then invoked with the pure identifier `message`. -/
def logOnceFormat {σ : Type} (targetTok lvlTok targetVal lvlVal : String)
    (render : σ → String × σ) (emitPanics : Bool) (st : σ) (s : SiteState) :
    CallResult σ :=
  let r := render st
  let inner := logOnceBare targetTok lvlTok targetVal lvlVal
    (fun t => (r.1, t)) emitPanics r.2 s
  ⟨inner.state, inner.effSt, Event.render r.1 :: inner.trace, inner.panicked⟩

/-- A call whose message expression is a pure string (e.g. a literal). -/
def pureCall (targetTok lvlTok targetVal lvlVal msg : String)
    (emitPanics : Bool) (s : SiteState) : CallResult Unit :=
  logOnceBare targetTok lvlTok targetVal lvlVal (fun u => (msg, u))
    emitPanics () s

/-- A sequence of non-panicking calls at one invocation site, each given by
its runtime target value and message; returns the final site state and the
concatenated trace. -/
def runCalls (targetTok lvlTok lvlVal : String)
    (calls : List (String × String)) (s : SiteState) :
    SiteState × List Event :=
  match calls with
  | [] => (s, [])
  | (tv, m) :: rest =>
      let r := pureCall targetTok lvlTok tv lvlVal m false s
      let next := runCalls targetTok lvlTok lvlVal rest r.state
      (next.1, r.trace ++ next.2)

/-- Does an event forward a record to the facade? -/
def isEmit : Event → Bool
  | Event.emit _ _ _ => true
  | _ => false

/-- Number of records forwarded to the facade in a trace. -/
def countEmits (tr : List Event) : Nat := (tr.filter isEmit).length

/-- Number of evaluations of the `$message` expression in a trace. -/
def countEvals (tr : List Event) : Nat :=
  (tr.filter (fun e => match e with | Event.evalMsg _ => true | _ => false)).length

/-- Number of `format!` renderings in a trace. -/
def countRenders (tr : List Event) : Nat :=
  (tr.filter (fun e => match e with | Event.render _ => true | _ => false)).length

/-- Scans a trace tracking whether the mutex is held; `true` iff some
emission to the facade happens while it is held. -/
def emitsWhileLocked (held : Bool) : List Event → Bool
  | [] => false
  | Event.lock :: rest => emitsWhileLocked true rest
  | Event.unlock :: rest => emitsWhileLocked false rest
  | Event.emit _ _ _ :: rest => held || emitsWhileLocked held rest
  | _ :: rest => emitsWhileLocked held rest

/-- Scans a trace; `true` iff every emission to the facade is preceded by
some `insert` event. -/
def emitsPrecededByInsert (inserted : Bool) : List Event → Bool
  | [] => true
  | Event.insert _ :: rest => emitsPrecededByInsert true rest
  | Event.emit _ _ _ :: rest => inserted && emitsPrecededByInsert inserted rest
  | _ :: rest => emitsPrecededByInsert inserted rest

/-- Two distinct invocation sites of the macro family: each expansion of
`log_once!(@CREATE STATIC)` (lib.rs lines 91-102) creates its own static
`__MessagesSet`, so the process state is one `SiteState` per site. -/
structure TwoSites where
  s1 : SiteState
  s2 : SiteState
deriving DecidableEq, Repr

/-- One non-panicking call at one of the two sites (both sites expand the
same target tokens, level and message here). -/
def callSite (first : Bool) (targetTok lvlTok targetVal lvlVal msg : String)
    (w : TwoSites) : TwoSites × List Event :=
  if first then
    let r := pureCall targetTok lvlTok targetVal lvlVal msg false w.s1
    (⟨r.state, w.s2⟩, r.trace)
  else
    let r := pureCall targetTok lvlTok targetVal lvlVal msg false w.s2
    (⟨w.s1, r.state⟩, r.trace)

/-- **C6.** The fingerprint on line 107 is plain concatenation of the
target rendering, the level rendering and the rendered message, with no
separator or length prefix, and consequently it is not injective: two
distinct (target, level, message) triples share a fingerprint. -/
theorem fingerprint_concat_not_injective :
    (∀ t l m, event t l m = t ++ l ++ m) ∧
    ∃ t1 l1 m1 t2 l2 m2 : String,
      (t1, l1, m1) ≠ (t2, l2, m2) ∧ event t1 l1 m1 = event t2 l2 m2 := by
  refine ⟨fun t l m => rfl, "ab", "c", "d", "a", "bc", "d", by decide, by decide⟩

/-! ### Helper lemmas about single calls -/

/-- A call on a poisoned site: `.lock().expect(...)` on line 106 panics
before anything else happens. -/
theorem logOnceBare_poisoned {σ : Type} (tTok lTok tv lv : String)
    (msgExpr : σ → String × σ) (ep : Bool) (st : σ) (s : SiteState)
    (h : s.poisoned = true) :
    logOnceBare tTok lTok tv lv msgExpr ep st s = ⟨s, st, [Event.panic], true⟩ := by
  simp [logOnceBare, h]

/-- A suppressed pure call: fingerprint already in the seen-set, nothing is
inserted or emitted and the state is unchanged. -/
theorem pureCall_suppressed (tTok lTok tv lv m : String) (ep : Bool)
    (s : SiteState) (h1 : s.poisoned = false)
    (h2 : s.seen.contains (event tTok lTok m) = true) :
    pureCall tTok lTok tv lv m ep s =
      ⟨s, (), [Event.lock, Event.evalMsg m, Event.query (event tTok lTok m),
               Event.unlock], false⟩ := by
  have h2m : event tTok lTok m ∈ s.seen := by simpa using h2
  simp [pureCall, logOnceBare, h1, h2m]

/-- An emitting pure call: unseen fingerprint, it is inserted and the
record is forwarded to the facade. -/
theorem pureCall_emits (tTok lTok tv lv m : String) (s : SiteState)
    (h1 : s.poisoned = false)
    (h2 : s.seen.contains (event tTok lTok m) = false) :
    pureCall tTok lTok tv lv m false s =
      ⟨⟨false, s.seen ++ [event tTok lTok m]⟩, (),
       [Event.lock, Event.evalMsg m, Event.query (event tTok lTok m),
        Event.insert (event tTok lTok m), Event.evalMsg m,
        Event.emit tv lv m, Event.unlock], false⟩ := by
  have h2m : event tTok lTok m ∉ s.seen := by simpa using h2
  simp [pureCall, logOnceBare, h1, h2m]

/-- An emitting pure call whose downstream `log!` panics: the insert has
already committed, the panic unwinds through the guard and poisons the
mutex. -/
theorem pureCall_emit_panics (tTok lTok tv lv m : String) (s : SiteState)
    (h1 : s.poisoned = false)
    (h2 : s.seen.contains (event tTok lTok m) = false) :
    pureCall tTok lTok tv lv m true s =
      ⟨⟨true, s.seen ++ [event tTok lTok m]⟩, (),
       [Event.lock, Event.evalMsg m, Event.query (event tTok lTok m),
        Event.insert (event tTok lTok m), Event.evalMsg m,
        Event.emit tv lv m, Event.panic], true⟩ := by
  have h2m : event tTok lTok m ∉ s.seen := by simpa using h2
  simp [pureCall, logOnceBare, h1, h2m]

theorem countEmits_append (t1 t2 : List Event) :
    countEmits (t1 ++ t2) = countEmits t1 + countEmits t2 := by
  simp [countEmits, List.filter_append]

/-- A whole replicated run of suppressed calls: if the fingerprint is
already seen, any number of further identical calls leaves the state
unchanged and forwards nothing. -/
theorem runCalls_replicate_seen (tTok lTok lv tv m : String) (s : SiteState)
    (h1 : s.poisoned = false)
    (h2 : s.seen.contains (event tTok lTok m) = true) :
    ∀ k, (runCalls tTok lTok lv (List.replicate k (tv, m)) s).1 = s ∧
      countEmits (runCalls tTok lTok lv (List.replicate k (tv, m)) s).2 = 0 := by
  intro k
  induction k with
  | zero => simp [runCalls, countEmits]
  | succ n ih =>
      rw [List.replicate_succ]
      simp only [runCalls, pureCall_suppressed tTok lTok tv lv m false s h1 h2]
      refine ⟨ih.1, ?_⟩
      rw [countEmits_append, ih.2]
      rfl

/-- **C1.** For one fixed fingerprint at one invocation site, issuing it
`N ≥ 1` times through `log_once!` (all the per-level `*_once!` macros of
lib.rs lines 127-220 delegate to it) forwards exactly one record to the
facade: the first call emits and every later identical call is
suppressed. -/
theorem log_once_at_most_once (tTok lTok tv lv m : String) (N : Nat)
    (h : 1 ≤ N) :
    countEmits (runCalls tTok lTok lv (List.replicate N (tv, m)) freshSite).2
      = 1 := by
  obtain ⟨k, rfl⟩ : ∃ k, N = k + 1 := ⟨N - 1, by omega⟩
  rw [List.replicate_succ]
  have hfresh : (freshSite : SiteState).seen.contains (event tTok lTok m)
      = false := rfl
  simp only [runCalls, pureCall_emits tTok lTok tv lv m freshSite rfl hfresh]
  have hseen : (SiteState.mk false ((freshSite : SiteState).seen
      ++ [event tTok lTok m])).seen.contains (event tTok lTok m) = true := by
    simp [freshSite]
  have := runCalls_replicate_seen tTok lTok lv tv m
    ⟨false, (freshSite : SiteState).seen ++ [event tTok lTok m]⟩ rfl hseen k
  rw [countEmits_append, this.2]
  rfl

/-- Witness for C1 at a concrete input. -/
theorem log_once_at_most_once_witness :
    countEmits (runCalls "\x22app\x22" "LogLevel::Warn" "Warn"
      (List.replicate 3 ("app", "hello")) freshSite).2 = 1 :=
  log_once_at_most_once "\x22app\x22" "LogLevel::Warn" "app" "Warn" "hello" 3
    (by decide)

/-- **C2.** Each invocation site owns its own static `__MessagesSet`
(`@CREATE STATIC`, lib.rs lines 91-102), so the same
(target, level, message) combination issued once at each of two distinct
sites is forwarded once per site — twice in total, not suppressed across
sites. -/
theorem log_once_per_site_storage (tTok lTok tv lv m : String) :
    countEmits ((callSite true tTok lTok tv lv m ⟨freshSite, freshSite⟩).2 ++
      (callSite false tTok lTok tv lv m
        (callSite true tTok lTok tv lv m ⟨freshSite, freshSite⟩).1).2) = 2 := by
  have hfresh : (freshSite : SiteState).seen.contains (event tTok lTok m)
      = false := rfl
  simp only [callSite, if_pos, if_neg,
    pureCall_emits tTok lTok tv lv m freshSite rfl hfresh]
  rw [countEmits_append]
  rfl

/-- With the target and level token strings fixed (as they are at one
invocation site), the fingerprint determines the message: concatenation
with a fixed prefix is injective in the message. -/
theorem event_msg_inj (tTok lTok m1 m2 : String) :
    event tTok lTok m1 = event tTok lTok m2 ↔ m1 = m2 := by
  unfold event
  constructor
  · intro h
    have h2 := congrArg String.data h
    simp at h2
    exact String.ext h2
  · intro h
    rw [h]

/-- **C3 counterexample.** One invocation site whose target expression is a
runtime variable (token string `"target"`): two calls with different
runtime target values (`"alpha"`, then `"beta"`) and the same rendered
message.  The claim says each gets its own emission; in the code the
fingerprint uses `stringify!($target)`, not the runtime value, so the first
call emits and the second is suppressed. -/
theorem log_once_runtime_target_counterexample :
    countEmits (pureCall "target" "LogLevel::Warn" "alpha" "Warn" "dup" false
      freshSite).trace = 1 ∧
    countEmits (pureCall "target" "LogLevel::Warn" "beta" "Warn" "dup" false
      (pureCall "target" "LogLevel::Warn" "alpha" "Warn" "dup" false
        freshSite).state).trace = 0 := by
  exact ⟨rfl, rfl⟩

/-- **C3 amended.** Duplicate detection at one invocation site is keyed by
the compile-time `stringify!` renderings of the target and level
expressions together with the runtime rendered message text: of two calls
at one site the second is suppressed exactly when the rendered messages
are equal — regardless of the runtime target values — and emits when the
messages differ. -/
theorem log_once_keying_amended (tTok lTok lv tv1 tv2 m1 m2 : String) :
    countEmits (pureCall tTok lTok tv1 lv m1 false freshSite).trace = 1 ∧
    countEmits (pureCall tTok lTok tv2 lv m2 false
      (pureCall tTok lTok tv1 lv m1 false freshSite).state).trace =
      (if m1 = m2 then 0 else 1) := by
  have hfresh : (freshSite : SiteState).seen.contains (event tTok lTok m1)
      = false := rfl
  rw [pureCall_emits tTok lTok tv1 lv m1 freshSite rfl hfresh]
  refine ⟨rfl, ?_⟩
  by_cases h : m1 = m2
  · subst h
    rw [if_pos rfl]
    have hc : (SiteState.mk false ((freshSite : SiteState).seen
        ++ [event tTok lTok m1])).seen.contains (event tTok lTok m1)
        = true := by
      simp [freshSite]
    rw [pureCall_suppressed tTok lTok tv2 lv m1 false _ rfl hc]
    rfl
  · rw [if_neg h]
    have hc : (SiteState.mk false ((freshSite : SiteState).seen
        ++ [event tTok lTok m1])).seen.contains (event tTok lTok m2)
        = false := by
      simp [freshSite, event_msg_inj]
      exact fun hh => h hh.symm
    rw [pureCall_emits tTok lTok tv2 lv m2 _ rfl hc]
    rfl

/-- **C4 counterexample.** A concrete first-seen call: the record is
forwarded to the facade while the mutex is still held (the `MutexGuard` of
line 106 lives to the closing brace of the expansion block, after the
`log!` on line 110), so the claim that the lock is released before
forwarding fails. -/
theorem log_once_lock_counterexample :
    countEmits (pureCall "t" "Lvl" "t" "Warn" "m" false freshSite).trace = 1 ∧
    emitsWhileLocked false
      (pureCall "t" "Lvl" "t" "Warn" "m" false freshSite).trace = true ∧
    (pureCall "t" "Lvl" "t" "Warn" "m" false freshSite).trace.getLast? =
      some Event.unlock := by
  exact ⟨rfl, rfl, rfl⟩

/-- **C4 amended.** On a first-seen fingerprint the call inserts the
fingerprint and then forwards the record while still holding the lock; the
lock is released only at the end of the expansion block, after the
downstream emission call. -/
theorem log_once_lock_held_amended (tTok lTok tv lv m : String)
    (s : SiteState) (h1 : s.poisoned = false)
    (h2 : s.seen.contains (event tTok lTok m) = false) :
    emitsWhileLocked false (pureCall tTok lTok tv lv m false s).trace = true ∧
    (pureCall tTok lTok tv lv m false s).trace.getLast? =
      some Event.unlock := by
  rw [pureCall_emits tTok lTok tv lv m s h1 h2]
  exact ⟨rfl, rfl⟩

/-- Witness for the amended C4 at a concrete input. -/
theorem log_once_lock_held_amended_witness :
    emitsWhileLocked false
      (pureCall "w" "Lvl" "w" "Warn" "msg" false freshSite).trace = true ∧
    (pureCall "w" "Lvl" "w" "Warn" "msg" false freshSite).trace.getLast? =
      some Event.unlock :=
  log_once_lock_held_amended "w" "Lvl" "w" "Warn" "msg" freshSite rfl rfl

/-- The core arm never produces a `format!` rendering event: rendering
belongs to the format arm alone. -/
theorem logOnceBare_no_render {σ : Type} (tTok lTok tv lv : String)
    (msgExpr : σ → String × σ) (ep : Bool) (st : σ) (s : SiteState) :
    countRenders (logOnceBare tTok lTok tv lv msgExpr ep st s).trace = 0 := by
  simp only [logOnceBare]
  split
  · rfl
  · split
    · rfl
    · split <;> rfl

/-- The core arm applied to a pure message expression threads the
side-effect state through unchanged. -/
theorem logOnceBare_pure_effSt {σ : Type} (tTok lTok tv lv m : String)
    (ep : Bool) (st : σ) (s : SiteState) :
    (logOnceBare tTok lTok tv lv (fun t => (m, t)) ep st s).effSt = st := by
  simp only [logOnceBare]
  split
  · rfl
  · split
    · rfl
    · split <;> rfl

theorem countRenders_cons_render (m : String) (tr : List Event) :
    countRenders (Event.render m :: tr) = countRenders tr + 1 := by
  simp [countRenders, List.filter]

/-- **C5.** In the format arm, the final message is rendered — with the
side effects of its interpolation arguments — exactly once per call,
before the duplicate check (the `Event.render` is the very first event of
the trace), and the net side-effect state is that of one rendering whether
the call is suppressed, emitted, or panics on a poisoned lock. -/
theorem log_once_format_renders_once {σ : Type} (tTok lTok tv lv : String)
    (render : σ → String × σ) (ep : Bool) (st : σ) (s : SiteState) :
    countRenders (logOnceFormat tTok lTok tv lv render ep st s).trace = 1 ∧
    (logOnceFormat tTok lTok tv lv render ep st s).trace.head? =
      some (Event.render (render st).1) ∧
    (logOnceFormat tTok lTok tv lv render ep st s).effSt = (render st).2 := by
  refine ⟨?_, ?_, ?_⟩
  · simp only [logOnceFormat, countRenders_cons_render, logOnceBare_no_render]
  · simp only [logOnceFormat, List.head?]
  · simp only [logOnceFormat, logOnceBare_pure_effSt]

/-- **C7.** If the mutex protecting the per-site seen-set has been
poisoned by a prior holder that terminated abnormally, every subsequent
call through any `log_once`-family entry point (they all expand to the
core arm) panics at `.lock().expect("Mutex was poisonned")` on line 106:
it fails fatally rather than recovering, emitting, or silently returning —
nothing is emitted, no argument is evaluated, and the state is
unchanged. -/
theorem log_once_poisoned_panics {σ : Type} (tTok lTok tv lv : String)
    (msgExpr : σ → String × σ) (ep : Bool) (st : σ) (s : SiteState)
    (h : s.poisoned = true) :
    (logOnceBare tTok lTok tv lv msgExpr ep st s).panicked = true ∧
    countEmits (logOnceBare tTok lTok tv lv msgExpr ep st s).trace = 0 ∧
    (logOnceBare tTok lTok tv lv msgExpr ep st s).state = s ∧
    (logOnceBare tTok lTok tv lv msgExpr ep st s).effSt = st := by
  rw [logOnceBare_poisoned tTok lTok tv lv msgExpr ep st s h]
  exact ⟨rfl, rfl, rfl, rfl⟩

/-- Witness for C7 at a concrete poisoned state. -/
theorem log_once_poisoned_panics_witness :
    (logOnceBare "t" "Lvl" "t" "Warn" (fun k : Nat => ("m", k + 1)) false 0
      ⟨true, ["x"]⟩).panicked = true ∧
    countEmits (logOnceBare "t" "Lvl" "t" "Warn" (fun k : Nat => ("m", k + 1))
      false 0 ⟨true, ["x"]⟩).trace = 0 ∧
    (logOnceBare "t" "Lvl" "t" "Warn" (fun k : Nat => ("m", k + 1)) false 0
      ⟨true, ["x"]⟩).state = ⟨true, ["x"]⟩ ∧
    (logOnceBare "t" "Lvl" "t" "Warn" (fun k : Nat => ("m", k + 1)) false 0
      ⟨true, ["x"]⟩).effSt = 0 :=
  log_once_poisoned_panics "t" "Lvl" "t" "Warn" (fun k : Nat => ("m", k + 1))
    false 0 ⟨true, ["x"]⟩ rfl

/-- A single core-arm call never removes an element from the seen-set. -/
theorem seen_mono_single {σ : Type} (tTok lTok tv lv : String)
    (msgExpr : σ → String × σ) (ep : Bool) (st : σ) (s : SiteState)
    (fp : String) (h : fp ∈ s.seen) :
    fp ∈ (logOnceBare tTok lTok tv lv msgExpr ep st s).state.seen := by
  simp only [logOnceBare]
  split
  · exact h
  · split
    · exact h
    · split
      · exact List.mem_append_left _ h
      · exact List.mem_append_left _ h

/-- A whole sequence of calls never removes an element from the
seen-set. -/
theorem seen_mono_run (tTok lTok lv : String) (calls : List (String × String))
    (s : SiteState) (fp : String) (h : fp ∈ s.seen) :
    fp ∈ (runCalls tTok lTok lv calls s).1.seen := by
  induction calls generalizing s with
  | nil => exact h
  | cons c rest ih =>
      obtain ⟨tv, m⟩ := c
      simp only [runCalls]
      exact ih _ (seen_mono_single tTok lTok tv lv _ false () s fp h)

/-- **C8.** The per-fingerprint transition is one-way: no operation (a
single call of any form, panicking or not, or any sequence of calls) ever
removes a fingerprint from a seen-set or clears it — once seen, a
fingerprint stays seen for the life of the process. -/
theorem log_once_seen_monotone :
    (∀ (σ : Type) (tTok lTok tv lv : String) (msgExpr : σ → String × σ)
        (ep : Bool) (st : σ) (s : SiteState) (fp : String),
        fp ∈ s.seen →
        fp ∈ (logOnceBare tTok lTok tv lv msgExpr ep st s).state.seen) ∧
    (∀ (tTok lTok lv : String) (calls : List (String × String))
        (s : SiteState) (fp : String),
        fp ∈ s.seen → fp ∈ (runCalls tTok lTok lv calls s).1.seen) :=
  ⟨fun _ tTok lTok tv lv msgExpr ep st s fp h =>
      seen_mono_single tTok lTok tv lv msgExpr ep st s fp h,
   fun tTok lTok lv calls s fp h => seen_mono_run tTok lTok lv calls s fp h⟩

/-- Witness for C8 at a concrete input. -/
theorem log_once_seen_monotone_witness :
    "x" ∈ (runCalls "t" "Lvl" "Warn" [("t", "m"), ("t", "n")]
      ⟨false, ["x"]⟩).1.seen :=
  log_once_seen_monotone.2 "t" "Lvl" "Warn" [("t", "m"), ("t", "n")]
    ⟨false, ["x"]⟩ "x" (by decide)

/-- Every facade emission in a core-arm trace is preceded by an insert. -/
theorem emitsPrecededByInsert_logOnceBare {σ : Type} (tTok lTok tv lv : String)
    (msgExpr : σ → String × σ) (ep : Bool) (st : σ) (s : SiteState) :
    emitsPrecededByInsert false
      (logOnceBare tTok lTok tv lv msgExpr ep st s).trace = true := by
  simp only [logOnceBare]
  split
  · rfl
  · split
    · rfl
    · split <;> rfl

/-- **C9 counterexample.** Concrete scenario: a first-seen call whose
facade emission panics.  The fingerprint is indeed recorded, but the panic
unwinds through the live `MutexGuard` and poisons the mutex, so the next
call with the same fingerprint does not return normally with the emission
suppressed — it panics itself at `.lock().expect(...)`.  The claim's
"every later call with the same fingerprint is suppressed" (a normal,
non-emitting return) is therefore false. -/
theorem log_once_emit_panic_counterexample :
    (pureCall "t" "Lvl" "t" "Warn" "m" true freshSite).panicked = true ∧
    event "t" "Lvl" "m" ∈
      (pureCall "t" "Lvl" "t" "Warn" "m" true freshSite).state.seen ∧
    (pureCall "t" "Lvl" "t" "Warn" "m" false
      (pureCall "t" "Lvl" "t" "Warn" "m" true freshSite).state).panicked
      = true ∧
    countEmits (pureCall "t" "Lvl" "t" "Warn" "m" false
      (pureCall "t" "Lvl" "t" "Warn" "m" true freshSite).state).trace = 0 := by
  exact ⟨rfl, by decide, rfl, rfl⟩

/-- **C9 amended.** The fingerprint is inserted strictly before the facade
emission call — every emission in a core-arm trace is preceded by the
insert, so the facade is only invoked once the fingerprint is a member of
the seen-set.  If the facade's emission panics, the fingerprint stays
recorded and the unwinding guard poisons the mutex, so every later call at
that site panics at the lock and forwards nothing: the message is never
delivered and never retried. -/
theorem log_once_insert_before_emit_amended :
    (∀ (σ : Type) (tTok lTok tv lv : String) (msgExpr : σ → String × σ)
        (ep : Bool) (st : σ) (s : SiteState),
        emitsPrecededByInsert false
          (logOnceBare tTok lTok tv lv msgExpr ep st s).trace = true) ∧
    (∀ (tTok lTok tv lv m : String) (s : SiteState),
        s.poisoned = false →
        s.seen.contains (event tTok lTok m) = false →
        (pureCall tTok lTok tv lv m true s).state.poisoned = true ∧
        event tTok lTok m ∈ (pureCall tTok lTok tv lv m true s).state.seen ∧
        (pureCall tTok lTok tv lv m true s).panicked = true) ∧
    (∀ (σ : Type) (tTok lTok tv lv : String) (msgExpr : σ → String × σ)
        (ep : Bool) (st : σ) (s : SiteState),
        s.poisoned = true →
        countEmits (logOnceBare tTok lTok tv lv msgExpr ep st s).trace = 0 ∧
        (logOnceBare tTok lTok tv lv msgExpr ep st s).panicked = true) := by
  refine ⟨fun _ tTok lTok tv lv msgExpr ep st s =>
      emitsPrecededByInsert_logOnceBare tTok lTok tv lv msgExpr ep st s,
    fun tTok lTok tv lv m s h1 h2 => ?_,
    fun _ tTok lTok tv lv msgExpr ep st s h => ?_⟩
  · rw [pureCall_emit_panics tTok lTok tv lv m s h1 h2]
    exact ⟨rfl, List.mem_append_right _ (List.mem_singleton.mpr rfl), rfl⟩
  · rw [logOnceBare_poisoned tTok lTok tv lv msgExpr ep st s h]
    exact ⟨rfl, rfl⟩

/-- Witness for the amended C9 at concrete inputs. -/
theorem log_once_insert_before_emit_amended_witness :
    ((pureCall "a" "Lvl" "a" "Warn" "p" true freshSite).state.poisoned = true ∧
      event "a" "Lvl" "p" ∈
        (pureCall "a" "Lvl" "a" "Warn" "p" true freshSite).state.seen ∧
      (pureCall "a" "Lvl" "a" "Warn" "p" true freshSite).panicked = true) ∧
    (countEmits (logOnceBare "a" "Lvl" "a" "Warn"
        (fun u : Unit => ("q", u)) false () ⟨true, []⟩).trace = 0 ∧
      (logOnceBare "a" "Lvl" "a" "Warn" (fun u : Unit => ("q", u)) false ()
        ⟨true, []⟩).panicked = true) :=
  ⟨log_once_insert_before_emit_amended.2.1 "a" "Lvl" "a" "Warn" "p" freshSite
      rfl rfl,
   log_once_insert_before_emit_amended.2.2 Unit "a" "Lvl" "a" "Warn"
      (fun u : Unit => ("q", u)) false () ⟨true, []⟩ rfl⟩

/-- **C10.** In the bare-message arm the `$message` expression occurs
twice in the expansion: it is always evaluated once on line 107 to build
the fingerprint, and evaluated a second time inside `log!` on line 110
only when the fingerprint is first seen — so it runs twice on an emitting
call and once on a suppressed call, as witnessed both by the evaluation
events and by the threaded side-effect state. -/
theorem log_once_bare_message_eval_twice {σ : Type} (tTok lTok tv lv : String)
    (msgExpr : σ → String × σ) (st : σ) (s : SiteState)
    (h : s.poisoned = false) :
    (s.seen.contains (event tTok lTok (msgExpr st).1) = true →
      countEvals (logOnceBare tTok lTok tv lv msgExpr false st s).trace = 1 ∧
      (logOnceBare tTok lTok tv lv msgExpr false st s).effSt =
        (msgExpr st).2) ∧
    (s.seen.contains (event tTok lTok (msgExpr st).1) = false →
      countEvals (logOnceBare tTok lTok tv lv msgExpr false st s).trace = 2 ∧
      (logOnceBare tTok lTok tv lv msgExpr false st s).effSt =
        (msgExpr (msgExpr st).2).2) := by
  constructor
  · intro hc
    have hm : event tTok lTok (msgExpr st).1 ∈ s.seen := by simpa using hc
    simp [logOnceBare, h, hm, countEvals, List.filter]
  · intro hc
    have hm : event tTok lTok (msgExpr st).1 ∉ s.seen := by simpa using hc
    simp [logOnceBare, h, hm, countEvals, List.filter]

/-- Witness for C10: a counting message expression, evaluated twice on the
emitting call from a fresh site and once on the suppressed call. -/
theorem log_once_bare_message_eval_twice_witness :
    (countEvals (logOnceBare "t" "Lvl" "t" "Warn"
        (fun k : Nat => ("m", k + 1)) false 0 freshSite).trace = 2 ∧
      (logOnceBare "t" "Lvl" "t" "Warn" (fun k : Nat => ("m", k + 1)) false 0
        freshSite).effSt = 2) ∧
    (countEvals (logOnceBare "t" "Lvl" "t" "Warn"
        (fun k : Nat => ("m", k + 1)) false 0
        ⟨false, [event "t" "Lvl" "m"]⟩).trace = 1 ∧
      (logOnceBare "t" "Lvl" "t" "Warn" (fun k : Nat => ("m", k + 1)) false 0
        ⟨false, [event "t" "Lvl" "m"]⟩).effSt = 1) :=
  ⟨(log_once_bare_message_eval_twice "t" "Lvl" "t" "Warn"
      (fun k : Nat => ("m", k + 1)) 0 freshSite rfl).2 rfl,
   (log_once_bare_message_eval_twice "t" "Lvl" "t" "Warn"
      (fun k : Nat => ("m", k + 1)) 0 ⟨false, [event "t" "Lvl" "m"]⟩ rfl).1
      (by decide)⟩
